import Mathlib

/-!
Shallow embedding of the health-monitoring core of rss-health-check.py:
the date normalizer, the per-source prober (check_source), the scheduler
fan-in, the config mutator (swap_url_in_config), and the failure-state
machine (the per-source body of run_checks).  Network I/O is modelled by
an explicit fetch oracle, the clock by explicit integer timestamps, and
Python floats by exact rationals.  CPython 3.11 stdlib leaves called by
the code (email parsedate, datetime.fromisoformat, json.loads,
ElementTree) are modelled by executable partial functions whose doc
comments state the modelled subset.
-/

namespace RssHealth

/-- Whitespace test matching the characters Python treats as whitespace in
str.split(), str.strip() and the regex class used by the repair pass. -/
def pyWsChar (c : Char) : Bool :=
  c == ' ' || c == '\t' || c == '\n' || c == '\r' || c == '\x0b' || c == '\x0c'

/-- Model of Python str.strip() with no arguments. -/
def pyStrip (s : String) : String :=
  String.mk (((s.data.dropWhile pyWsChar).reverse.dropWhile pyWsChar).reverse)

/-- Split a character list at every separator character (Python
str.split with an explicit one-character separator: empty pieces kept). -/
def splitCharList (sep : Char) : List Char → List (List Char)
  | [] => [[]]
  | c :: rest =>
    match splitCharList sep rest with
    | [] => [[c]]
    | h :: t => if c = sep then [] :: h :: t else (c :: h) :: t

/-- Python s.split(sep) for a one-character separator, on strings. -/
def splitOnChar (sep : Char) (s : String) : List String :=
  (splitCharList sep s.data).map String.mk

/-- Lowercased string (ASCII, which covers every table entry compared). -/
def lowerStr (s : String) : String := String.mk (s.data.map Char.toLower)

/-- Uppercased string (ASCII). -/
def upperStr (s : String) : String := String.mk (s.data.map Char.toUpper)

/-- Python s.endswith(t). -/
def strEndsWith (s t : String) : Bool :=
  t.data.reverse.isPrefixOf s.data.reverse

/-- Python s.startswith(t). -/
def strStartsWith (s t : String) : Bool :=
  t.data.isPrefixOf s.data

/-- Python (c in s) for a single character. -/
def strContainsChar (s : String) (c : Char) : Bool :=
  s.data.any (fun x => x == c)

/-- Model of Python str.split() with no arguments: split on whitespace runs,
dropping empty tokens. -/
def pySplitWs (s : String) : List String :=
  ((splitCharList ' ' ((s.data.map (fun c => if pyWsChar c then ' ' else c)))).filter
    (fun t => t ≠ [])).map String.mk

/-- Value of a nonempty list of decimal digit characters. -/
def digitsToNat : List Char → Option Nat
  | [] => none
  | ds =>
    if ds.all Char.isDigit then
      some (ds.foldl (fun acc c => acc * 10 + (c.toNat - 48)) 0)
    else none

/-- Model of Python int(str): optional surrounding whitespace, optional
sign, decimal digits (leading zeros allowed).  Underscore separators,
accepted by CPython, are not modelled; no input in this development uses
them. -/
def pyIntString (s : String) : Option Int :=
  let cs := (s.data.dropWhile pyWsChar).reverse.dropWhile pyWsChar |>.reverse
  match cs with
  | '+' :: ds => (digitsToNat ds).map (fun n => (n : Int))
  | '-' :: ds => (digitsToNat ds).map (fun n => -(n : Int))
  | ds => (digitsToNat ds).map (fun n => (n : Int))

/-- Result of a successful date parse: the components of a Python
datetime, with tz the UTC offset in seconds (none for a naive value). -/
structure DT where
  year : Int
  month : Nat
  day : Nat
  hour : Nat
  minute : Nat
  second : Nat
  tz : Option Int
deriving DecidableEq, Repr

/-- Days in a month of the proleptic Gregorian calendar, as validated by
the Python datetime constructor. -/
def daysInMonth (y : Int) (m : Nat) : Nat :=
  if m = 2 then
    if y % 4 = 0 ∧ (y % 100 ≠ 0 ∨ y % 400 = 0) then 29 else 28
  else if m = 4 ∨ m = 6 ∨ m = 9 ∨ m = 11 then 30
  else 31

/-- Validity of a tz offset for the timezone constructor: strictly between
minus 24 hours and plus 24 hours. -/
def tzOffsetOk : Option Int → Bool
  | none => true
  | some off => decide (-86400 < off) && decide (off < 86400)

/-- Range validation performed by the datetime constructor (MINYEAR 1,
MAXYEAR 9999); a violation raises ValueError, modelled as none. -/
def mkDatetime (y : Int) (mo d h mi se : Nat) (tz : Option Int) : Option DT :=
  if 1 ≤ y ∧ y ≤ 9999 ∧ 1 ≤ mo ∧ mo ≤ 12 ∧ 1 ≤ d ∧ d ≤ daysInMonth y mo ∧
     h ≤ 23 ∧ mi ≤ 59 ∧ se ≤ 59 ∧ tzOffsetOk tz = true then
    some ⟨y, mo, d, h, mi, se, tz⟩
  else none

/-- Days since 1970-01-01 of a proleptic Gregorian date (the civil-days
algorithm used to give datetime.timestamp a closed form). -/
def daysFromCivil (y : Int) (m d : Int) : Int :=
  let y2 := if m ≤ 2 then y - 1 else y
  let era := (if 0 ≤ y2 then y2 else y2 - 399) / 400
  let yoe := y2 - era * 400
  let mp := (m + 9) % 12
  let doy := (153 * mp + 2) / 5 + d - 1
  let doe := yoe * 365 + yoe / 4 - yoe / 100 + doy
  era * 146097 + doe - 719468

/-- Model of datetime.timestamp(): epoch seconds.  An aware value uses its
own offset; a naive value is interpreted in the host local timezone,
passed explicitly as localOff (seconds east of UTC). -/
def dtTimestamp (localOff : Int) (d : DT) : Int :=
  daysFromCivil d.year (d.month : Int) (d.day : Int) * 86400 +
    (d.hour : Int) * 3600 + (d.minute : Int) * 60 + (d.second : Int) -
    (d.tz.getD localOff)

/-- Month-name table of email._parseaddr (abbreviated then full names;
index mod 12 gives the month number). -/
def monthNames : List String :=
  ["jan", "feb", "mar", "apr", "may", "jun", "jul", "aug", "sep", "oct",
   "nov", "dec", "january", "february", "march", "april", "may", "june",
   "july", "august", "september", "october", "november", "december"]

/-- Day-name table of email._parseaddr. -/
def dayNames : List String := ["mon", "tue", "wed", "thu", "fri", "sat", "sun"]

/-- Named-timezone table of email._parseaddr, values in the ±HHMM numeric
convention. -/
def tzTable : List (String × Int) :=
  [("UT", 0), ("UTC", 0), ("GMT", 0), ("Z", 0),
   ("AST", -400), ("ADT", -300), ("EST", -500), ("EDT", -400),
   ("CST", -600), ("CDT", -500), ("MST", -700), ("MDT", -600),
   ("PST", -800), ("PDT", -700)]

/-- Month number (1..12) of a lowercased month token, per the
email._parseaddr index-plus-one-mod-12 rule. -/
def monthIndex (m : String) : Option Nat :=
  match monthNames.indexOf? m with
  | none => none
  | some i => some (if i + 1 > 12 then i + 1 - 12 else i + 1)

/-- Index of the first occurrence of a character in a string, as Python
str.find (none for -1). -/
def charIdx (c : Char) (s : String) : Option Nat :=
  s.data.findIdx? (fun x => x == c)

/-- Token list after the day-name adjustment at the top of
email._parseaddr._parsedate_tz. -/
def pdAdjustDayname (data : List String) : List String :=
  match data with
  | [] => []
  | t0 :: rest =>
    if strEndsWith t0 "," = true ∨ lowerStr t0 ∈ dayNames then rest
    else
      let parts := splitOnChar ',' t0
      (parts.getLastD t0) :: rest

/-- RFC 850 expansion: a 3-token list whose first token splits into three
on hyphens becomes five tokens. -/
def pdRfc850 (data : List String) : List String :=
  match data with
  | [a, b, c] =>
    let stuff := splitOnChar '-' a
    match stuff with
    | [x, y, z] => [x, y, z, b, c]
    | _ => [a, b, c]
  | _ => data

/-- Four-token adjustment: split a trailing time+offset token at the sign,
or append a dummy timezone token. -/
def pdSplitTz (data : List String) : List String :=
  match data with
  | [a, b, c, s] =>
    let i : Int :=
      match charIdx '+' s with
      | some j => (j : Int)
      | none =>
        match charIdx '-' s with
        | some j => (j : Int)
        | none => -1
    if 0 < i then
      [a, b, c, String.mk (s.data.take i.toNat), String.mk (s.data.drop i.toNat)]
    else [a, b, c, s, ""]
  | _ => data

/-- Timezone-offset resolution of _parsedate_tz: table lookup on the
uppercased token, else int(); an offset of 0 written with a leading minus
sign means an unknown timezone (none). -/
def pdTzOffset (tz : String) : Option Int :=
  let fromTable := (tzTable.find? (fun p => p.1 == upperStr tz)).map (fun p => p.2)
  let v := match fromTable with
    | some n => some n
    | none => pyIntString tz
  match v with
  | none => none
  | some n => if n = 0 ∧ strStartsWith tz "-" = true then none else some n

/-- Conversion of a ±HHMM-convention offset into seconds (-0500 becomes
-18000); an offset of exactly 0 is kept as 0 without conversion. -/
def pdTzSeconds (n : Int) : Int :=
  if n = 0 then 0
  else
    let sgn : Int := if n < 0 then -1 else 1
    let a : Int := (n.natAbs : Int)
    sgn * ((a / 100) * 3600 + (a % 100) * 60)

/-- Two-digit-year correction mandated by POSIX: 69..99 map into the
1900s, 0..68 into the 2000s. -/
def pdFixYear (yy : Int) : Int :=
  if yy < 100 then (if yy > 68 then yy + 1900 else yy + 2000) else yy

/-- Time-of-day token split: hh:mm, hh:mm:ss, or the non-compliant
hh.mm / hh.mm.ss variants. -/
def pdSplitTime (tm : String) : Option (String × String × String) :=
  let tm := if strEndsWith tm "," = true then String.mk tm.data.dropLast else tm
  match splitOnChar ':' tm with
  | [a, b] => some (a, b, "0")
  | [a, b, c] => some (a, b, c)
  | [a] =>
    if strContainsChar a '.' = true then
      match splitOnChar '.' a with
      | [x, y] => some (x, y, "0")
      | [x, y, z] => some (x, y, z)
      | _ => none
    else none
  | _ => none

/-- Model of email.utils.parsedate_to_datetime (CPython 3.11): a
transcription of email._parseaddr._parsedate_tz followed by the datetime
construction; none wherever CPython raises ValueError or returns None. -/
def parsedate_to_datetime (s : String) : Option DT :=
  match pySplitWs s with
  | [] => none
  | data0 =>
  let data3 := pdSplitTz (pdRfc850 (pdAdjustDayname data0))
  if data3.length < 5 then none else
  match data3.take 5 with
  | [dd0, mm0, yy0, tm0, tz0] =>
    if dd0 = "" ∨ mm0 = "" ∨ yy0 = "" then none else
    let mm1 := lowerStr mm0
    let pair := if (monthIndex mm1).isSome then (dd0, mm1) else (mm1, lowerStr dd0)
    match monthIndex pair.2 with
    | none => none
    | some mo =>
    let dd1 := if strEndsWith pair.1 "," = true then String.mk pair.1.data.dropLast else pair.1
    let yt := match charIdx ':' yy0 with
      | some j => if 0 < j then (tm0, yy0) else (yy0, tm0)
      | none => (yy0, tm0)
    match (if strEndsWith yt.1 "," = true then
             (let y2 := String.mk yt.1.data.dropLast
              if y2 = "" then none else some y2)
           else some yt.1) with
    | none => none
    | some yy1 =>
    match yy1.data.head? with
    | none => none
    | some c0 =>
    let ytz := if c0.isDigit then (yy1, tz0) else (tz0, yy1)
    match pdSplitTime yt.2 with
    | none => none
    | some (thh, tmm, tss) =>
    match pyIntString ytz.1, pyIntString dd1, pyIntString thh,
          pyIntString tmm, pyIntString tss with
    | some yyI, some ddI, some hhI, some miI, some ssI =>
      let yyF := pdFixYear yyI
      let tzSec := (pdTzOffset ytz.2).map pdTzSeconds
      if 0 ≤ ddI ∧ 0 ≤ hhI ∧ 0 ≤ miI ∧ 0 ≤ ssI then
        mkDatetime yyF mo ddI.toNat hhI.toNat miI.toNat ssI.toNat tzSec
      else none
    | _, _, _, _, _ => none
  | _ => none

/-- Two decimal digits. -/
def parse2 : List Char → Option (Nat × List Char)
  | a :: b :: rest =>
    if a.isDigit ∧ b.isDigit then
      some ((a.toNat - 48) * 10 + (b.toNat - 48), rest)
    else none
  | _ => none

/-- Four decimal digits. -/
def parse4 : List Char → Option (Nat × List Char)
  | a :: b :: c :: d :: rest =>
    if a.isDigit ∧ b.isDigit ∧ c.isDigit ∧ d.isDigit then
      some ((((a.toNat - 48) * 10 + (b.toNat - 48)) * 10 + (c.toNat - 48)) * 10
              + (d.toNat - 48), rest)
    else none
  | _ => none

/-- Offset digits after the sign in an ISO string: HH, HHMM or HH:MM,
validated as a timezone offset. -/
def isoOffset (sgn : Int) (cs : List Char) : Option (Option Int) :=
  let mk : Nat → Nat → Option (Option Int) := fun hh mm =>
    if mm ≤ 59 ∧ hh * 3600 + mm * 60 < 86400 then
      some (some (sgn * ((hh : Int) * 3600 + (mm : Int) * 60)))
    else none
  match parse2 cs with
  | none => none
  | some (hh, rest) =>
    match rest with
    | [] => mk hh 0
    | ':' :: rest2 =>
      match parse2 rest2 with
      | some (mm, []) => mk hh mm
      | _ => none
    | _ =>
      match parse2 rest with
      | some (mm, []) => mk hh mm
      | _ => none

/-- Trailing timezone designator of an ISO time: empty (naive), or an
optional single space followed by Z or a signed offset. -/
def isoTz (cs : List Char) : Option (Option Int) :=
  match cs with
  | [] => some none
  | _ =>
    let cs2 := match cs with
      | ' ' :: rest => rest
      | _ => cs
    match cs2 with
    | ['Z'] => some (some 0)
    | '+' :: rest => isoOffset 1 rest
    | '-' :: rest => isoOffset (-1) rest
    | _ => none

/-- Time-of-day part of an ISO string: HH, HH:MM or HH:MM:SS followed by
the timezone designator.  Fractional seconds are not modelled; no input
in this development carries them. -/
def isoTime (cs : List Char) : Option (Nat × Nat × Nat × Option Int) :=
  match parse2 cs with
  | none => none
  | some (hh, rest) =>
    match rest with
    | ':' :: rest2 =>
      match parse2 rest2 with
      | none => none
      | some (mi, rest3) =>
        match rest3 with
        | ':' :: rest4 =>
          match parse2 rest4 with
          | none => none
          | some (ss, rest5) => (isoTz rest5).map (fun tz => (hh, mi, ss, tz))
        | _ => (isoTz rest3).map (fun tz => (hh, mi, 0, tz))
    | _ => (isoTz rest).map (fun tz => (hh, 0, 0, tz))

/-- Model of datetime.fromisoformat (CPython 3.11) on the extended format:
YYYY-MM-DD, optionally followed by any single separator character and a
time with optional offset.  The compressed basic format (YYYYMMDD), week
dates and fractional seconds are not modelled; none of the feed dates in
this development use them. -/
def fromisoformat (s : String) : Option DT :=
  match parse4 s.data with
  | none => none
  | some (y, rest) =>
    match rest with
    | '-' :: r1 =>
      match parse2 r1 with
      | none => none
      | some (mo, r2) =>
        match r2 with
        | '-' :: r3 =>
          match parse2 r3 with
          | none => none
          | some (d, r4) =>
            match r4 with
            | [] => mkDatetime (y : Int) mo d 0 0 0 none
            | _ :: r5 =>
              match isoTime r5 with
              | none => none
              | some (hh, mi, ss, tz) => mkDatetime (y : Int) mo d hh mi ss tz
        | _ => none
    | _ => none

/-- Model of re.sub applied to the pattern that matches optional
whitespace followed by a trailing sign-and-four-digits offset, replacing
the match with a single space before the offset. -/
def repairOffset (s : String) : String :=
  let cs := s.data
  if cs.length < 5 then s
  else
    let tl := cs.drop (cs.length - 5)
    match tl with
    | sgn :: ds =>
      if (sgn = '+' ∨ sgn = '-') ∧ ds.all Char.isDigit ∧ ds.length = 4 then
        let pre := cs.take (cs.length - 5)
        let pre2 := (pre.reverse.dropWhile pyWsChar).reverse
        String.mk (pre2 ++ ' ' :: sgn :: ds)
      else s
    | [] => s

/-- The Date Normalizer, parse_date_flexible: RFC 2822 first, then ISO
8601, then the offset repair pass retrying ISO 8601; none if all fail. -/
def parse_date_flexible (dateStr : String) : Option DT :=
  let s := pyStrip dateStr
  if s = "" then none
  else
    match parsedate_to_datetime s with
    | some d => some d
    | none =>
      match fromisoformat s with
      | some d => some d
      | none =>
        let cleaned := repairOffset s
        if cleaned ≠ s then fromisoformat cleaned else none

/-- Opening curly brace character (written numerically throughout). -/
def lbrace : Char := Char.ofNat 123

/-- Closing curly brace character. -/
def rbrace : Char := Char.ofNat 125

/-- A decoded JSON value as produced by json.loads: Python dicts, lists,
str, int, bool and None.  Floats are not modelled; no payload in this
development uses them. -/
inductive JValue where
  | null
  | bool (b : Bool)
  | num (n : Int)
  | str (s : String)
  | arr (elems : List JValue)
  | obj (fields : List (String × JValue))

/-- JSON whitespace accepted by json.loads. -/
def jWs (c : Char) : Bool := c == ' ' || c == '\t' || c == '\n' || c == '\r'

/-- Skip JSON whitespace. -/
def jSkip (cs : List Char) : List Char := cs.dropWhile jWs

/-- Body of a JSON string after the opening quote, handling the one-character
escapes; the uXXXX escape is not modelled (no payload here uses it). -/
def jString (fuel : Nat) (cs : List Char) : Option (List Char × List Char) :=
  match fuel, cs with
  | 0, _ => none
  | _, [] => none
  | fuel + 1, c :: rest =>
    if c = '"' then some ([], rest)
    else if c = '\\' then
      match rest with
      | e :: rest2 =>
        let dec : Option Char :=
          if e = '"' then some '"'
          else if e = '\\' then some '\\'
          else if e = '/' then some '/'
          else if e = 'n' then some '\n'
          else if e = 't' then some '\t'
          else if e = 'r' then some '\r'
          else if e = 'b' then some '\x08'
          else if e = 'f' then some '\x0c'
          else none
        match dec with
        | none => none
        | some d => (jString fuel rest2).map (fun p => (d :: p.1, p.2))
      | [] => none
    else if c.toNat < 32 then none
    else (jString fuel rest).map (fun p => (c :: p.1, p.2))

/-- Run of decimal digits forming a JSON integer literal (no redundant
leading zero, and not followed by a fraction or exponent). -/
def jNat (cs : List Char) : Option (Nat × List Char) :=
  let ds := cs.takeWhile Char.isDigit
  let rest := cs.dropWhile Char.isDigit
  if ds = [] then none
  else if ds.length > 1 ∧ ds.head? = some '0' then none
  else
    match rest with
    | '.' :: _ => none
    | 'e' :: _ => none
    | 'E' :: _ => none
    | _ => some (ds.foldl (fun acc c => acc * 10 + (c.toNat - 48)) 0, rest)

/-- Signed JSON integer literal. -/
def jInt (cs : List Char) : Option (Int × List Char) :=
  match cs with
  | '-' :: rest => (jNat rest).map (fun p => (-(p.1 : Int), p.2))
  | _ => (jNat cs).map (fun p => ((p.1 : Int), p.2))

mutual

/-- One JSON value starting at the head of the input (after whitespace). -/
def jVal (fuel : Nat) (cs : List Char) : Option (JValue × List Char) :=
  match fuel with
  | 0 => none
  | fuel + 1 =>
    let cs1 := jSkip cs
    match cs1 with
    | [] => none
    | c :: rest =>
      if c = '"' then
        (jString fuel rest).map (fun p => (JValue.str (String.mk p.1), p.2))
      else if c = lbrace then
        (jObj fuel rest true).map (fun p => (JValue.obj p.1, p.2))
      else if c = '[' then
        (jArr fuel rest true).map (fun p => (JValue.arr p.1, p.2))
      else if "true".data.isPrefixOf cs1 then some (JValue.bool true, cs1.drop 4)
      else if "false".data.isPrefixOf cs1 then some (JValue.bool false, cs1.drop 5)
      else if "null".data.isPrefixOf cs1 then some (JValue.null, cs1.drop 4)
      else (jInt cs1).map (fun p => (JValue.num p.1, p.2))

/-- Elements of a JSON array, positioned after the opening bracket (first)
or after a separating comma. -/
def jArr (fuel : Nat) (cs : List Char) (first : Bool) :
    Option (List JValue × List Char) :=
  match fuel with
  | 0 => none
  | fuel + 1 =>
    let cs1 := jSkip cs
    if first ∧ cs1.head? = some ']' then some ([], cs1.tail)
    else
      match jVal fuel cs1 with
      | none => none
      | some (v, rest) =>
        match jSkip rest with
        | ']' :: r => some ([v], r)
        | ',' :: r => (jArr fuel r false).map (fun p => (v :: p.1, p.2))
        | _ => none

/-- Fields of a JSON object, positioned after the opening brace (first) or
after a separating comma. -/
def jObj (fuel : Nat) (cs : List Char) (first : Bool) :
    Option (List (String × JValue) × List Char) :=
  match fuel with
  | 0 => none
  | fuel + 1 =>
    let cs1 := jSkip cs
    if first ∧ cs1.head? = some rbrace then some ([], cs1.tail)
    else
      match cs1 with
      | '"' :: rest =>
        match jString fuel rest with
        | none => none
        | some (k, rest2) =>
          match jSkip rest2 with
          | ':' :: rest3 =>
            match jVal fuel rest3 with
            | none => none
            | some (v, rest4) =>
              match jSkip rest4 with
              | c :: rr =>
                if c = rbrace then some ([(String.mk k, v)], rr)
                else if c = ',' then
                  (jObj fuel rr false).map (fun p => ((String.mk k, v) :: p.1, p.2))
                else none
              | [] => none
          | _ => none
      | _ => none

end

/-- Model of json.loads on the JSON subset above: the whole input must be
consumed apart from surrounding whitespace; none models the raised
JSONDecodeError. -/
def jsonLoads (s : String) : Option JValue :=
  match jVal (2 * s.data.length + 2) s.data with
  | some (v, rest) => if jSkip rest = [] then some v else none
  | none => none

/-- Python type name of a decoded JSON value, as it appears in runtime
error messages. -/
def pyTypeName : JValue → String
  | JValue.null => "NoneType"
  | JValue.bool _ => "bool"
  | JValue.num _ => "int"
  | JValue.str _ => "str"
  | JValue.arr _ => "list"
  | JValue.obj _ => "dict"

/-- Python truthiness of a decoded JSON value. -/
def pyTruthy : JValue → Bool
  | JValue.null => false
  | JValue.bool b => b
  | JValue.num n => n != 0
  | JValue.str s => s != ""
  | JValue.arr l => !l.isEmpty
  | JValue.obj fs => !fs.isEmpty

/-- Model of v.get(key, default): defined on dicts, an AttributeError on
every other type (this call is outside the try block in check_source). -/
def pyGet (v : JValue) (key : String) (dflt : JValue) : Except String JValue :=
  match v with
  | JValue.obj fs =>
    Except.ok (((fs.find? (fun p => p.1 == key)).map (fun p => p.2)).getD dflt)
  | _ =>
    Except.error
      ("\x27" ++ pyTypeName v ++ "\x27 object has no attribute \x27get\x27")

/-- Model of len(v): defined on lists, strings and dicts, a TypeError on
the rest. -/
def pyLen (v : JValue) : Except String Nat :=
  match v with
  | JValue.arr l => Except.ok l.length
  | JValue.str s => Except.ok s.length
  | JValue.obj fs => Except.ok fs.length
  | _ =>
    Except.error ("object of type \x27" ++ pyTypeName v ++ "\x27 has no len()")

/-- Model of iteration over v: list elements, string characters, dict
keys; a TypeError on the rest. -/
def pyIterElems (v : JValue) : Except String (List JValue) :=
  match v with
  | JValue.arr l => Except.ok l
  | JValue.str s => Except.ok (s.data.map (fun c => JValue.str (String.mk [c])))
  | JValue.obj fs => Except.ok (fs.map (fun p => JValue.str p.1))
  | _ =>
    Except.error ("\x27" ++ pyTypeName v ++ "\x27 object is not iterable")

/-- Model of the guarded int(ctime) conversion: the surrounding
try/except swallows ValueError and TypeError, so failures are none. -/
def ctimeInt : JValue → Option Int
  | JValue.num n => some n
  | JValue.str s => pyIntString s
  | JValue.bool b => some (if b then 1 else 0)
  | _ => none

/-- The newest-timestamp fold of the structured-api branch: for each
article, read ctime with default empty string (an AttributeError on a
non-dict article escapes), keep the maximum convertible value. -/
def newestCtime : Option Int → List JValue → Except String (Option Int)
  | acc, [] => Except.ok acc
  | acc, item :: rest =>
    match pyGet item "ctime" (JValue.str "") with
    | Except.error m => Except.error m
    | Except.ok ct =>
      let acc2 :=
        if pyTruthy ct then
          match ctimeInt ct with
          | some ts =>
            match acc with
            | none => some ts
            | some b => if ts > b then some ts else some b
          | none => acc
        else acc
      newestCtime acc2 rest

/-- An exact rational kept as an unreduced numerator/denominator pair
(denominator a positive literal at every construction site).  Python
float arithmetic is modelled by exact rationals; every quantity in this
development is exactly representable. -/
structure Frac where
  num : Int
  den : Nat
deriving DecidableEq, Repr

/-- Strict rational greater-than on fractions by cross-multiplication
(valid for the positive denominators used here). -/
def fracGtB (a b : Frac) : Bool :=
  decide (b.num * (a.den : Int) < a.num * (b.den : Int))

/-- A fraction equal to an integer. -/
def intFrac (n : Int) : Frac := ⟨n, 1⟩

/-- The age in hours of a timestamp: (now - ts) / 3600. -/
def ageHours (nowTs ts : Int) : Frac := ⟨nowTs - ts, 3600⟩

/-- Round-half-to-even to an integer, the rounding used by Python round()
and by the .0f format. -/
def roundHalfEven (q : Frac) : Int :=
  let f : Int := Int.fdiv q.num (q.den : Int)
  let rnum : Int := q.num - f * (q.den : Int)
  if 2 * rnum < (q.den : Int) then f
  else if (q.den : Int) < 2 * rnum then f + 1
  else if f % 2 = 0 then f else f + 1

/-- Model of round(x, 1): the nearest multiple of one tenth, kept with
denominator ten. -/
def roundTo1 (q : Frac) : Frac := ⟨roundHalfEven ⟨q.num * 10, q.den⟩, 10⟩

/-- The stale-feed message, with the age formatted as .0f and the integer
threshold formatted by str(). -/
def staleMsg (age : Frac) (maxAge : Int) : String :=
  "stale feed (newest " ++ toString (roundHalfEven age) ++ "h, max " ++
    toString maxAge ++ "h)"

/-- Index of the first occurrence of pat in cs, none if absent. -/
def strFindIdx (pat : List Char) : List Char → Option Nat
  | [] => if pat = [] then some 0 else none
  | c :: rest =>
    if pat.isPrefixOf (c :: rest) then some 0
    else (strFindIdx pat rest).map (fun i => i + 1)

/-- All non-overlapping op..cl segments of cs, in order, returning the
text strictly between the delimiters. -/
def extractBetween (op cl : List Char) (fuel : Nat) (cs : List Char) :
    List (List Char) :=
  match fuel with
  | 0 => []
  | fuel + 1 =>
    match strFindIdx op cs with
    | none => []
    | some i =>
      let afterOp := cs.drop (i + op.length)
      match strFindIdx cl afterOp with
      | none => []
      | some j =>
        afterOp.take j :: extractBetween op cl fuel (afterOp.drop (j + cl.length))

/-- First op..cl segment of cs, if any. -/
def firstBetween (op cl cs : List Char) : Option (List Char) :=
  match strFindIdx op cs with
  | none => none
  | some i =>
    let afterOp := cs.drop (i + op.length)
    (strFindIdx cl afterOp).map (fun j => afterOp.take j)

/-- The publication-date text of one item: findtext pubDate, else the
Atom published, else updated, else the empty string, with Python or
treating an empty found text as absent. -/
def itemPubText (inner : List Char) : String :=
  let pick : Option (List Char) → Option (List Char) := fun o =>
    match o with
    | some t => if t = [] then none else some t
    | none => none
  match pick (firstBetween "<pubDate>".data "</pubDate>".data inner) with
  | some t => String.mk t
  | none =>
    match pick (firstBetween "<published>".data "</published>".data inner) with
    | some t => String.mk t
    | none =>
      match pick (firstBetween "<updated>".data "</updated>".data inner) with
      | some t => String.mk t
      | none => ""

/-- Model of the feed-xml extraction: ElementTree parse, findall on item
elements, falling back to entry elements, then the pubDate text chain per
item.  Partial model of the stdlib parser: elements are matched as plain
attribute-free tags and Atom namespace qualification is dropped; a
document whose first non-whitespace character is not an opening angle
bracket is a parse error, which is true of every ElementTree input and is
the only failure behavior any claim relies on. -/
def xmlItems (cs : List Char) : Option (List String) :=
  match cs.dropWhile pyWsChar with
  | '<' :: _ =>
    let items := extractBetween "<item>".data "</item>".data (cs.length + 1) cs
    let items2 :=
      if items.isEmpty then
        extractBetween "<entry>".data "</entry>".data (cs.length + 1) cs
      else items
    some (items2.map itemPubText)
  | _ => none

/-- The status dict built by check_source: ok, error, article_count,
newest_age_hours. -/
structure CheckRes where
  ok : Bool
  error : Option String
  article_count : Nat
  newest_age_hours : Option Frac
deriving DecidableEq, Repr

/-- The newest-timestamp fold of the feed-xml branch: parse each nonempty
publication string through the Date Normalizer and keep the maximum
timestamp. -/
def newestPubTs (localOff : Int) : Option Int → List String → Option Int
  | acc, [] => acc
  | acc, pub :: rest =>
    let acc2 :=
      if pyStrip pub ≠ "" then
        match parse_date_flexible pub with
        | some dt =>
          let ts := dtTimestamp localOff dt
          match acc with
          | none => some ts
          | some b => if ts > b then some ts else some b
        | none => acc
      else acc
    newestPubTs localOff acc2 rest

/-- The per-source prober check_source(name, url, source_type,
max_age_hours).  The network is an explicit oracle from url to either an
exception type name (any transport failure) or a response body; bodies
are modelled as decoded text, so the byte-decoding fallbacks of the
feed-xml branch cannot fail and are elided.  The current clock and the
host local timezone offset are explicit.  The returned value is the
status dict, or an uncaught Python exception message (Except.error),
which in the structured-api branch can arise from attribute, len or
iteration errors on unexpected payload shapes.  The Python function also
passes its name argument through unchanged as the first component of a
returned pair, discarded at both call sites; the pair is elided. -/
def check_source (fetch : String → Except String String) (nowTs localOff : Int)
    (name url stype : String) (maxAge : Int) : Except String CheckRes :=
  match fetch url with
  | Except.error ename =>
    Except.ok ⟨false, some ("unreachable: " ++ ename), 0, none⟩
  | Except.ok raw =>
  if raw = "" then Except.ok ⟨false, some "empty response", 0, none⟩ else
  if stype = "json" then
    match jsonLoads raw with
    | none => Except.ok ⟨false, some "JSON parse error", 0, none⟩
    | some data =>
      match pyGet data "result" (JValue.obj []) with
      | Except.error m => Except.error m
      | Except.ok r1 =>
      match pyGet r1 "data" (JValue.arr []) with
      | Except.error m => Except.error m
      | Except.ok articles =>
      if pyTruthy articles = false then
        Except.ok ⟨false, some "empty feed (0 articles)", 0, none⟩
      else
      match pyLen articles with
      | Except.error m => Except.error m
      | Except.ok count =>
      match pyIterElems articles with
      | Except.error m => Except.error m
      | Except.ok elems =>
      match newestCtime none elems with
      | Except.error m => Except.error m
      | Except.ok none => Except.ok ⟨true, none, count, none⟩
      | Except.ok (some ts) =>
        let age := ageHours nowTs ts
        if fracGtB age (intFrac maxAge) = true then
          Except.ok ⟨false, some (staleMsg age maxAge), count, some (roundTo1 age)⟩
        else Except.ok ⟨true, none, count, some (roundTo1 age)⟩
  else
    match xmlItems raw.data with
    | none => Except.ok ⟨false, some "XML parse error", 0, none⟩
    | some [] => Except.ok ⟨false, some "empty feed (0 articles)", 0, none⟩
    | some pubs =>
      match newestPubTs localOff none pubs with
      | none => Except.ok ⟨true, none, pubs.length, none⟩
      | some ts =>
        let age := ageHours nowTs ts
        if fracGtB age (intFrac maxAge) = true then
          Except.ok
            ⟨false, some (staleMsg age maxAge), pubs.length, some (roundTo1 age)⟩
        else Except.ok ⟨true, none, pubs.length, some (roundTo1 age)⟩

/-- One scheduled probe: the task tuple built by run_checks from one
configured source (name, url, type tag, staleness threshold). -/
structure CheckTask where
  name : String
  url : String
  stype : String
  maxAge : Int
deriving DecidableEq, Repr

/-- The probe a pool worker runs for one task. -/
def runProbe (fetch : String → Except String String) (nowTs localOff : Int)
    (t : CheckTask) : Except String CheckRes :=
  check_source fetch nowTs localOff t.name t.url t.stype t.maxAge

/-- The scheduler boundary: future.result() either yields the probe's
status dict or re-raises its exception, which is converted into the
synthetic failure entry. -/
def settleResult : Except String CheckRes → CheckRes
  | Except.ok r => r
  | Except.error m => ⟨false, some ("exception: " ++ m), 0, none⟩

/-- Python dict assignment d[k] = v on an insertion-ordered association
list: overwrite in place if the key exists, else append. -/
def dictInsert (d : List (String × CheckRes)) (kv : String × CheckRes) :
    List (String × CheckRes) :=
  if d.any (fun p => p.1 == kv.1) then
    d.map (fun p => if p.1 == kv.1 then (p.1, kv.2) else p)
  else d ++ [kv]

/-- Python dict lookup on the association list. -/
def dictLookup (d : List (String × CheckRes)) (k : String) : Option CheckRes :=
  (d.find? (fun p => p.1 == k)).map (fun p => p.2)

/-- The fan-in of run_checks: as_completed yields the futures in an
arbitrary completion order, modelled as an arbitrary permutation of the
task list, and each settled result is stored under the task's name. -/
def scheduleResults (fetch : String → Except String String)
    (nowTs localOff : Int) (completionOrder : List CheckTask) :
    List (String × CheckRes) :=
  completionOrder.foldl
    (fun d t => dictInsert d (t.name, settleResult (runProbe fetch nowTs localOff t)))
    []

/-- JSON string-escape of one character as json.dumps with the default
ensure_ascii produces it: the two-character escapes, then uXXXX for the
remaining control and non-ASCII characters (with a surrogate pair above
the basic plane). -/
def jsonEscapeChar (c : Char) : List Char :=
  let hexDigit : Nat → Char := fun n =>
    if n < 10 then Char.ofNat (48 + n) else Char.ofNat (87 + n)
  let hex4 : Nat → List Char := fun n =>
    [hexDigit (n / 4096 % 16), hexDigit (n / 256 % 16),
     hexDigit (n / 16 % 16), hexDigit (n % 16)]
  if c = '"' then ['\\', '"']
  else if c = '\\' then ['\\', '\\']
  else if c = '\n' then ['\\', 'n']
  else if c = '\t' then ['\\', 't']
  else if c = '\r' then ['\\', 'r']
  else if c = '\x08' then ['\\', 'b']
  else if c = '\x0c' then ['\\', 'f']
  else if 32 ≤ c.toNat ∧ c.toNat ≤ 126 then [c]
  else if c.toNat < 65536 then '\\' :: 'u' :: hex4 c.toNat
  else
    let v := c.toNat - 65536
    ('\\' :: 'u' :: hex4 (55296 + v / 1024)) ++ ('\\' :: 'u' :: hex4 (56320 + v % 1024))

/-- Model of json.dumps on a string value: surrounding quotes plus
per-character escaping. -/
def jsonDumpsStr (s : String) : List Char :=
  '"' :: (s.data.map jsonEscapeChar).flatten ++ ['"']

/-- Model of the Python substring test pat in text. -/
def containsSub (pat : List Char) : List Char → Bool
  | [] => pat.isEmpty
  | c :: rest => pat.isPrefixOf (c :: rest) || containsSub pat rest

/-- Model of text.replace(pat, rep, 1): replace the first occurrence of
pat only. -/
def replaceFirst (pat rep : List Char) : List Char → List Char
  | [] => if pat.isEmpty then rep else []
  | c :: rest =>
    if pat.isPrefixOf (c :: rest) then rep ++ (c :: rest).drop pat.length
    else c :: replaceFirst pat rep rest

/-- The Config Mutator swap_url_in_config, as a pure function of the
persisted document text: JSON-escape both URLs, refuse (false, unchanged)
when the escaped old URL is absent, else replace its first occurrence.
The atomic temp-file-and-rename write discipline is filesystem behavior
outside the embedding. -/
def swap_url_in_config (text : List Char) (oldUrl newUrl : String) :
    Bool × List Char :=
  let oldJ := jsonDumpsStr oldUrl
  let newJ := jsonDumpsStr newUrl
  if containsSub oldJ text then (true, replaceFirst oldJ newJ text)
  else (false, text)

/-- One configured source entry as read from the config document. -/
structure SrcCfg where
  name : String
  url : String
deriving DecidableEq, Repr

/-- The in-memory config object loaded once at the start of a cycle: the
two source sections.  Note the failure-state machine reads URLs from this
snapshot, not from the mutated document text. -/
structure Config where
  sina_api : List SrcCfg
  rss_feeds : List SrcCfg
deriving DecidableEq, Repr

/-- get_current_url: first name match in the sina_api section, then in
rss_feeds; none when the source is not configured. -/
def get_current_url (cfg : Config) (sourceName : String) : Option String :=
  match cfg.sina_api.find? (fun s => s.name == sourceName) with
  | some s => some s.url
  | none => (cfg.rss_feeds.find? (fun s => s.name == sourceName)).map (fun s => s.url)

/-- The static fallback registry FALLBACK_URLS. -/
def FALLBACK_URLS : List (String × String) :=
  [("虎嗅", "https://rsshub.rssforever.com/huxiu/article"),
   ("IT之家", "https://rsshub.rssforever.com/ithome"),
   ("36氪", "https://rsshub.rssforever.com/36kr/news"),
   ("少数派", "https://rsshub.rssforever.com/sspai/matrix"),
   ("钛媒体", "https://rsshub.rssforever.com/tmtpost/recommend"),
   ("界面新闻", "https://rsshub.rssforever.com/jiemian/list/4"),
   ("Solidot", "https://rsshub.rssforever.com/solidot"),
   ("南方周末", "https://rsshub.rssforever.com/infzm/2")]

/-- Registered fallback URL of a source name, if any. -/
def fallbackUrl (sourceName : String) : Option String :=
  (FALLBACK_URLS.find? (fun p => p.1 == sourceName)).map (fun p => p.2)

/-- The consecutive-failure threshold FAIL_THRESHOLD. -/
def FAIL_THRESHOLD : Nat := 3

/-- The default staleness threshold DEFAULT_MAX_AGE_HOURS. -/
def DEFAULT_MAX_AGE_HOURS : Int := 72

/-- The persisted per-source state record, with the defaults used for a
previously-unseen source. -/
structure Entry where
  consecutive_fails : Nat
  last_check : Option String
  last_error : Option String
  swapped_from : Option String
deriving DecidableEq, Repr

/-- Python truthiness of an optional string (None and the empty string
are falsy). -/
def truthyOptStr : Option String → Bool
  | none => false
  | some s => s != ""

/-- The unconditional per-cycle state update: reset the failure counter
and clear the error on success, else increment the counter and record the
error; always stamp the check time. -/
def update_entry (nowStr : String) (res : CheckRes) (st : Entry) : Entry :=
  if res.ok then
    { st with consecutive_fails := 0, last_error := none, last_check := some nowStr }
  else
    { st with consecutive_fails := st.consecutive_fails + 1,
              last_error := res.error, last_check := some nowStr }

/-- The auto-swap block of run_checks for one source: fires only on a
failed result at or past the threshold with a registered fallback; a
source already swapped is skipped (the loop's continue); the mutation is
attempted only when the configured live URL exists and is truthy, and
swapped_from is set exactly when the mutation succeeds.  Returns the new
entry, the new document text, the attempted mutation requests and the
emitted swap event. -/
def failover_step (cfg : Config) (text : List Char) (sourceName : String)
    (res : CheckRes) (entry : Entry) :
    Entry × List Char × List (String × String) ×
      Option (String × String × String) :=
  if res.ok = false ∧ FAIL_THRESHOLD ≤ entry.consecutive_fails ∧
     (fallbackUrl sourceName).isSome = true then
    match entry.swapped_from with
    | some _ => (entry, text, [], none)
    | none =>
      match fallbackUrl sourceName, get_current_url cfg sourceName with
      | some fb, some oldUrl =>
        if oldUrl ≠ "" then
          match swap_url_in_config text oldUrl fb with
          | (true, t2) =>
            ({ entry with swapped_from := some oldUrl }, t2, [(oldUrl, fb)],
             some (sourceName, oldUrl, fb))
          | (false, t2) => (entry, t2, [(oldUrl, fb)], none)
        else (entry, text, [], none)
      | _, _ => (entry, text, [], none)
  else (entry, text, [], none)

/-- The auto-revert block of run_checks for one source: fires only on a
successful result for a source with a truthy swapped_from whose
configured live URL is truthy and differs from the original; it then
probes the original URL with the fixed feed-xml type tag and the default
staleness threshold, and only a successful probe leads to the restoring
mutation, which on success clears swapped_from and emits the revert
event.  An exception escaping the probe aborts the cycle (Except.error),
since this call is outside any try block. -/
def revert_step (fetch : String → Except String String) (nowTs localOff : Int)
    (cfg : Config) (text : List Char) (sourceName : String) (res : CheckRes)
    (entry : Entry) :
    Except String
      (Entry × List Char × List (String × String) ×
        Option (String × String × String)) :=
  if res.ok = true ∧ truthyOptStr entry.swapped_from = true then
    match entry.swapped_from with
    | none => Except.ok (entry, text, [], none)
    | some orig =>
      match get_current_url cfg sourceName with
      | none => Except.ok (entry, text, [], none)
      | some cur =>
        if cur ≠ "" ∧ cur ≠ orig then
          match check_source fetch nowTs localOff sourceName orig "rss"
              DEFAULT_MAX_AGE_HOURS with
          | Except.error m => Except.error m
          | Except.ok probe =>
            if probe.ok = true then
              match swap_url_in_config text cur orig with
              | (true, t2) =>
                Except.ok ({ entry with swapped_from := none }, t2,
                  [(cur, orig)], some (sourceName, cur, orig))
              | (false, t2) => Except.ok (entry, t2, [(cur, orig)], none)
            else Except.ok (entry, text, [], none)
        else Except.ok (entry, text, [], none)
  else Except.ok (entry, text, [], none)

/-- The observable outcome of one source's pass through the state-update
loop of run_checks. -/
structure StepOut where
  entry : Entry
  text : List Char
  swapRequests : List (String × String)
  revertRequests : List (String × String)
  swapEvent : Option (String × String × String)
  revertEvent : Option (String × String × String)
deriving DecidableEq, Repr

/-- One source's full pass through the loop body of run_checks: the
unconditional state update, then the auto-swap block, then the
auto-revert block, threading the shared config document text.  In the
Python loop the continue after an already-swapped skip only bypasses the
revert block, whose guard requires a successful result and so cannot fire
on the failing results the swap block acts on; sequential composition is
therefore equivalent. -/
def step_source (fetch : String → Except String String) (nowTs localOff : Int)
    (cfg : Config) (text : List Char) (nowStr sourceName : String)
    (res : CheckRes) (st : Entry) : Except String StepOut :=
  let entry := update_entry nowStr res st
  match failover_step cfg text sourceName res entry with
  | (e1, t1, reqs1, ev1) =>
    match revert_step fetch nowTs localOff cfg t1 sourceName res e1 with
    | Except.error m => Except.error m
    | Except.ok (e2, t2, reqs2, ev2) => Except.ok ⟨e2, t2, reqs1, reqs2, ev1, ev2⟩

theorem isPrefixOf_iff_exists (a : List Char) :
    ∀ b : List Char, a.isPrefixOf b = true ↔ ∃ t, b = a ++ t := by
  induction a with
  | nil =>
    intro b
    simp [List.isPrefixOf]
  | cons x xs ih =>
    intro b
    cases b with
    | nil =>
      simp [List.isPrefixOf]
    | cons y ys =>
      simp only [List.isPrefixOf, Bool.and_eq_true, beq_iff_eq, ih ys,
        List.cons_append, List.cons.injEq]
      constructor
      · rintro ⟨hxy, t, ht⟩
        exact ⟨t, hxy.symm, ht⟩
      · rintro ⟨t, hyx, ht⟩
        exact ⟨hyx.symm, t, ht⟩

theorem containsSub_iff_exists (pat : List Char) :
    ∀ text : List Char, containsSub pat text = true ↔ ∃ p s, text = p ++ pat ++ s := by
  intro text
  induction text with
  | nil =>
    simp only [containsSub, List.isEmpty_iff]
    constructor
    · rintro rfl
      exact ⟨[], [], rfl⟩
    · rintro ⟨p, s, hps⟩
      rcases List.append_eq_nil.mp (List.append_eq_nil.mp hps.symm).1 with ⟨-, h2⟩
      exact h2
  | cons c cs ih =>
    simp only [containsSub, Bool.or_eq_true, isPrefixOf_iff_exists, ih]
    constructor
    · rintro (⟨t, ht⟩ | ⟨p, s, hps⟩)
      · exact ⟨[], t, by simpa using ht⟩
      · exact ⟨c :: p, s, by simp [hps]⟩
    · rintro ⟨p, s, hps⟩
      cases p with
      | nil =>
        exact Or.inl ⟨s, by simpa using hps⟩
      | cons d p2 =>
        simp only [List.cons_append, List.cons.injEq] at hps
        exact Or.inr ⟨p2, s, hps.2⟩

theorem replaceFirst_first (pat rep : List Char) :
    ∀ text : List Char, containsSub pat text = true →
      ∃ p s, text = p ++ pat ++ s ∧
        replaceFirst pat rep text = p ++ rep ++ s ∧
        ∀ p2 s2, text = p2 ++ pat ++ s2 → p.length ≤ p2.length := by
  intro text
  induction text with
  | nil =>
    intro h
    simp only [containsSub, List.isEmpty_iff] at h
    subst h
    exact ⟨[], [], rfl, by simp [replaceFirst], fun p2 s2 _ => Nat.zero_le _⟩
  | cons c cs ih =>
    intro h
    by_cases hp : pat.isPrefixOf (c :: cs) = true
    · rcases (isPrefixOf_iff_exists pat (c :: cs)).mp hp with ⟨t, ht⟩
      refine ⟨[], t, by simpa using ht, ?_, fun p2 s2 _ => Nat.zero_le _⟩
      simp only [replaceFirst, hp, if_pos]
      simp [ht]
    · have hcs : containsSub pat cs = true := by
        simp only [containsSub, Bool.or_eq_true] at h
        rcases h with h | h
        · exact absurd h hp
        · exact h
      rcases ih hcs with ⟨p, s, hps, hrep, hmin⟩
      refine ⟨c :: p, s, by simp [hps], ?_, ?_⟩
      · simp only [replaceFirst, hp, if_neg, Bool.false_eq_true, not_false_iff]
        simp [hrep]
      · rintro p2 s2 h2
        cases p2 with
        | nil =>
          exfalso
          apply hp
          rw [isPrefixOf_iff_exists]
          exact ⟨s2, by simpa using h2⟩
        | cons d p3 =>
          simp only [List.cons_append, List.cons.injEq] at h2
          have := hmin p3 s2 h2.2
          simpa using Nat.succ_le_succ this

/-- C4: for every document text and URL pair, if the JSON-serialized old
URL does not occur in the text, swap_url_in_config returns false and
leaves the text unchanged; if it occurs anywhere, the swap returns true
and rewrites exactly the earliest occurrence into the serialized new URL,
leaving the prefix before it and the suffix after it (including any later
occurrences) byte-for-byte unchanged. -/
theorem C4_swap_frame (text : List Char) (oldUrl newUrl : String) :
    ((¬ ∃ p s, text = p ++ jsonDumpsStr oldUrl ++ s) →
      swap_url_in_config text oldUrl newUrl = (false, text)) ∧
    (∀ p s, text = p ++ jsonDumpsStr oldUrl ++ s →
      ∃ p2 s2, text = p2 ++ jsonDumpsStr oldUrl ++ s2 ∧
        swap_url_in_config text oldUrl newUrl =
          (true, p2 ++ jsonDumpsStr newUrl ++ s2) ∧
        ∀ p3 s3, text = p3 ++ jsonDumpsStr oldUrl ++ s3 →
          p2.length ≤ p3.length) := by
  constructor
  · intro hno
    have hc : containsSub (jsonDumpsStr oldUrl) text = false := by
      cases hcl : containsSub (jsonDumpsStr oldUrl) text with
      | false => rfl
      | true => exact absurd ((containsSub_iff_exists _ text).mp hcl) hno
    simp [swap_url_in_config, hc]
  · intro p s hps
    have hc : containsSub (jsonDumpsStr oldUrl) text = true :=
      (containsSub_iff_exists _ text).mpr ⟨p, s, hps⟩
    rcases replaceFirst_first (jsonDumpsStr oldUrl) (jsonDumpsStr newUrl) text hc
      with ⟨p2, s2, h1, h2, h3⟩
    exact ⟨p2, s2, h1, by simp [swap_url_in_config, hc, h2], h3⟩

/-- Witness for C4 at a concrete document holding two occurrences of the
serialized URL: the swap rewrites the first and keeps the second. -/
theorem C4_swap_frame_witness :
    ("A \"u\" B \"u\" C".data = "A ".data ++ jsonDumpsStr "u" ++ " B \"u\" C".data) ∧
    ∃ p2 s2, "A \"u\" B \"u\" C".data = p2 ++ jsonDumpsStr "u" ++ s2 ∧
      swap_url_in_config "A \"u\" B \"u\" C".data "u" "vv" =
        (true, p2 ++ jsonDumpsStr "vv" ++ s2) ∧
      ∀ p3 s3, "A \"u\" B \"u\" C".data = p3 ++ jsonDumpsStr "u" ++ s3 →
        p2.length ≤ p3.length := by
  refine ⟨by decide, ?_⟩
  exact (C4_swap_frame "A \"u\" B \"u\" C".data "u" "vv").2
    "A ".data " B \"u\" C".data (by decide)

/-- C7: the Date Normalizer tries the RFC 2822 parser first, then ISO
8601, then the offset repair pass retrying ISO 8601: the three round-trip
inputs parse to instants consistent with their stated offsets (the two
+08:00 forms denote the same epoch second, eight hours before the +0000
form's naive reading), the ISO input is indeed rejected by the RFC
parser, the double-space input is rejected by both earlier strategies and
repaired to a single space before the offset, and an unparseable string
yields none rather than an error. -/
theorem C7_date_normalizer :
    parse_date_flexible "Mon, 02 Jan 2023 08:00:00 +0000" =
      some ⟨2023, 1, 2, 8, 0, 0, some 0⟩ ∧
    parse_date_flexible "2023-01-02T08:00:00+08:00" =
      some ⟨2023, 1, 2, 8, 0, 0, some 28800⟩ ∧
    parse_date_flexible "2023-01-02 08:00:00  +0800" =
      some ⟨2023, 1, 2, 8, 0, 0, some 28800⟩ ∧
    parse_date_flexible "yesterday" = none ∧
    parsedate_to_datetime "2023-01-02T08:00:00+08:00" = none ∧
    parsedate_to_datetime "2023-01-02 08:00:00  +0800" = none ∧
    fromisoformat "2023-01-02 08:00:00  +0800" = none ∧
    repairOffset "2023-01-02 08:00:00  +0800" = "2023-01-02 08:00:00 +0800" ∧
    dtTimestamp 0 ⟨2023, 1, 2, 8, 0, 0, some 0⟩ = 1672646400 ∧
    dtTimestamp 0 ⟨2023, 1, 2, 8, 0, 0, some 28800⟩ = 1672617600 :=
  ⟨rfl, rfl, rfl, rfl, rfl, rfl, rfl, rfl, rfl, rfl⟩

/-- C10: a structured-api response whose body is valid JSON with a
non-dict top level escapes check_source as an uncaught attribute error
(the try block guards only the json.loads call, and the following get
call on a non-dict raises), and the scheduler boundary downgrades it to
the generic synthetic exception result rather than a parse-error. -/
theorem C10_nonobject_payload (fetch : String → Except String String)
    (nowTs localOff : Int) (sourceName url : String) (maxAge : Int)
    (body : String) (data : JValue)
    (hfetch : fetch url = Except.ok body) (hne : body ≠ "")
    (hload : jsonLoads body = some data)
    (hnobj : ∀ fs, data ≠ JValue.obj fs) :
    check_source fetch nowTs localOff sourceName url "json" maxAge =
      Except.error
        ("\x27" ++ pyTypeName data ++ "\x27 object has no attribute \x27get\x27") ∧
    settleResult (check_source fetch nowTs localOff sourceName url "json" maxAge) =
      ⟨false,
        some ("exception: " ++
          ("\x27" ++ pyTypeName data ++ "\x27 object has no attribute \x27get\x27")),
        0, none⟩ := by
  have hget : pyGet data "result" (JValue.obj []) =
      Except.error
        ("\x27" ++ pyTypeName data ++ "\x27 object has no attribute \x27get\x27") := by
    cases data with
    | obj fs => exact absurd rfl (hnobj fs)
    | null => rfl
    | bool b => rfl
    | num n => rfl
    | str s => rfl
    | arr l => rfl
  have h1 : check_source fetch nowTs localOff sourceName url "json" maxAge =
      Except.error
        ("\x27" ++ pyTypeName data ++ "\x27 object has no attribute \x27get\x27") := by
    simp only [check_source, hfetch]
    rw [if_neg hne]
    simp only [eq_self_iff_true, if_true, hload, hget]
  exact ⟨h1, by rw [h1]; rfl⟩

/-- Witness for C10: the body is the JSON array [1, 2]; check_source
raises the list attribute error and the scheduler records the synthetic
exception result for that source. -/
theorem C10_nonobject_payload_witness :
    check_source (fun _ => Except.ok "[1, 2]") 0 0 "s" "u" "json" 72 =
      Except.error "\x27list\x27 object has no attribute \x27get\x27" ∧
    settleResult (check_source (fun _ => Except.ok "[1, 2]") 0 0 "s" "u" "json" 72) =
      ⟨false, some "exception: \x27list\x27 object has no attribute \x27get\x27",
        0, none⟩ := by
  have h := C10_nonobject_payload (fun _ => Except.ok "[1, 2]") 0 0 "s" "u" 72
    "[1, 2]" (JValue.arr [JValue.num 1, JValue.num 2]) rfl (by decide) rfl
    (fun fs h => JValue.noConfusion h)
  exact ⟨by rw [h.1]; rfl, by rw [h.2]; rfl⟩

/-- C6: in the structured-api branch, a payload that decodes to a
nonempty article list with a usable newest timestamp older than the
threshold yields a failing stale result that still reports the real
article count and the computed age (rounded to one decimal). -/
theorem C6_stale_keeps_count (fetch : String → Except String String)
    (nowTs localOff : Int) (sourceName url : String) (maxAge : Int)
    (body : String) (data r1 : JValue) (items : List JValue) (ts : Int)
    (hfetch : fetch url = Except.ok body) (hne : body ≠ "")
    (hload : jsonLoads body = some data)
    (hres : pyGet data "result" (JValue.obj []) = Except.ok r1)
    (hdata : pyGet r1 "data" (JValue.arr []) = Except.ok (JValue.arr items))
    (hitems : items ≠ [])
    (hnew : newestCtime none items = Except.ok (some ts))
    (hage : fracGtB (ageHours nowTs ts) (intFrac maxAge) = true) :
    check_source fetch nowTs localOff sourceName url "json" maxAge =
      Except.ok
        ⟨false, some (staleMsg (ageHours nowTs ts) maxAge),
          items.length, some (roundTo1 (ageHours nowTs ts))⟩ := by
  have htruthy : pyTruthy (JValue.arr items) = true := by
    simp [pyTruthy, List.isEmpty_iff, hitems]
  simp only [check_source, hfetch]
  rw [if_neg hne]
  simp only [eq_self_iff_true, if_true, if_false, hload, hres, hdata, htruthy,
    Bool.true_eq_false, if_neg (by simp : ¬(true = false)), pyLen,
    pyIterElems, hnew, hage, if_pos]

/-- Witness for C6, the spec scenario: one article, ctime eighty hours
before now, threshold 72h; the result is stale with article_count 1 and
newest_article_age exactly 80. -/
theorem C6_stale_keeps_count_witness :
    check_source
        (fun _ =>
          Except.ok
            "\x7b\"result\": \x7b\"data\": [\x7b\"ctime\": 1000000\x7d]\x7d\x7d")
        1288000 0 "s" "u" "json" 72 =
      Except.ok ⟨false, some "stale feed (newest 80h, max 72h)", 1,
        some ⟨800, 10⟩⟩ := by
  have h := C6_stale_keeps_count
    (fun _ =>
      Except.ok "\x7b\"result\": \x7b\"data\": [\x7b\"ctime\": 1000000\x7d]\x7d\x7d")
    1288000 0 "s" "u" 72
    "\x7b\"result\": \x7b\"data\": [\x7b\"ctime\": 1000000\x7d]\x7d\x7d"
    (JValue.obj
      [("result", JValue.obj [("data", JValue.arr [JValue.obj [("ctime", JValue.num 1000000)]])])])
    (JValue.obj [("data", JValue.arr [JValue.obj [("ctime", JValue.num 1000000)]])])
    [JValue.obj [("ctime", JValue.num 1000000)]] 1000000
    rfl (by decide) rfl rfl rfl (by intro h; cases h) rfl (by decide)
  rw [h]
  rfl

theorem update_entry_swapped_from (nowStr : String) (res : CheckRes) (st : Entry) :
    (update_entry nowStr res st).swapped_from = st.swapped_from := by
  unfold update_entry
  split <;> rfl

theorem update_entry_of_fail (nowStr : String) (res : CheckRes) (st : Entry)
    (h : res.ok = false) :
    update_entry nowStr res st =
      { st with consecutive_fails := st.consecutive_fails + 1,
                last_error := res.error, last_check := some nowStr } := by
  unfold update_entry
  rw [if_neg (by rw [h]; exact fun hc => Bool.noConfusion hc)]

theorem update_entry_of_ok (nowStr : String) (res : CheckRes) (st : Entry)
    (h : res.ok = true) :
    update_entry nowStr res st =
      { st with consecutive_fails := 0, last_error := none,
                last_check := some nowStr } := by
  unfold update_entry
  rw [if_pos h]

theorem failover_step_of_ok (cfg : Config) (text : List Char) (n : String)
    (res : CheckRes) (e : Entry) (h : res.ok = true) :
    failover_step cfg text n res e = (e, text, [], none) := by
  unfold failover_step
  rw [if_neg]
  intro hcon
  rw [h] at hcon
  exact Bool.noConfusion hcon.1

theorem failover_step_of_swapped (cfg : Config) (text : List Char) (n : String)
    (res : CheckRes) (e : Entry) (u : String) (h : e.swapped_from = some u) :
    failover_step cfg text n res e = (e, text, [], none) := by
  unfold failover_step
  split
  · rw [h]
  · rfl

theorem failover_step_fires (cfg : Config) (text : List Char) (n : String)
    (res : CheckRes) (e : Entry) (fb oldUrl : String)
    (hok : res.ok = false) (hthr : FAIL_THRESHOLD ≤ e.consecutive_fails)
    (hsw : e.swapped_from = none) (hfb : fallbackUrl n = some fb)
    (hold : get_current_url cfg n = some oldUrl) (hne : oldUrl ≠ "") :
    failover_step cfg text n res e =
      match swap_url_in_config text oldUrl fb with
      | (true, t2) =>
        ({ e with swapped_from := some oldUrl }, t2, [(oldUrl, fb)],
          some (n, oldUrl, fb))
      | (false, t2) => (e, t2, [(oldUrl, fb)], none) := by
  unfold failover_step
  rw [if_pos ⟨hok, hthr, by rw [hfb]; rfl⟩]
  simp only [hsw, hfb, hold]
  rw [if_pos hne]

theorem revert_step_of_fail (fetch : String → Except String String)
    (nowTs localOff : Int) (cfg : Config) (text : List Char) (n : String)
    (res : CheckRes) (e : Entry) (h : res.ok = false) :
    revert_step fetch nowTs localOff cfg text n res e =
      Except.ok (e, text, [], none) := by
  unfold revert_step
  rw [if_neg]
  intro hcon
  rw [h] at hcon
  exact Bool.noConfusion hcon.1

theorem revert_step_fires (fetch : String → Except String String)
    (nowTs localOff : Int) (cfg : Config) (text : List Char) (n : String)
    (res : CheckRes) (e : Entry) (orig cur : String)
    (hok : res.ok = true) (hsw : e.swapped_from = some orig) (horig : orig ≠ "")
    (hcur : get_current_url cfg n = some cur) (hcne : cur ≠ "") (hneq : cur ≠ orig) :
    revert_step fetch nowTs localOff cfg text n res e =
      match check_source fetch nowTs localOff n orig "rss" DEFAULT_MAX_AGE_HOURS with
      | Except.error m => Except.error m
      | Except.ok probe =>
        if probe.ok = true then
          match swap_url_in_config text cur orig with
          | (true, t2) =>
            Except.ok ({ e with swapped_from := none }, t2, [(cur, orig)],
              some (n, cur, orig))
          | (false, t2) => Except.ok (e, t2, [(cur, orig)], none)
        else Except.ok (e, text, [], none) := by
  unfold revert_step
  rw [if_pos ⟨hok, by rw [hsw]; simpa [truthyOptStr] using horig⟩]
  simp only [hsw, hcur]
  rw [if_pos ⟨hcne, hneq⟩]

theorem revert_step_entry_cases (fetch : String → Except String String)
    (nowTs localOff : Int) (cfg : Config) (text : List Char) (n : String)
    (res : CheckRes) (e : Entry) :
    ∀ r, revert_step fetch nowTs localOff cfg text n res e = Except.ok r →
      (r.1 = e ∧ r.2.2.1 = [] ∧ r.2.2.2 = none) ∨
      (∃ orig cur, e.swapped_from = some orig ∧ res.ok = true ∧
        get_current_url cfg n = some cur ∧ cur ≠ orig ∧
        (∃ pr, check_source fetch nowTs localOff n orig "rss" DEFAULT_MAX_AGE_HOURS =
            Except.ok pr ∧ pr.ok = true) ∧
        r.2.2.1 = [(cur, orig)] ∧
        ((r.1 = { e with swapped_from := none } ∧ r.2.2.2 = some (n, cur, orig) ∧
          swap_url_in_config text cur orig = (true, r.2.1)) ∨
         (r.1 = e ∧ r.2.2.2 = none ∧
          swap_url_in_config text cur orig = (false, r.2.1)))) := by
  intro r
  unfold revert_step
  split
  · rename_i hcond
    cases hsw : e.swapped_from with
    | none => intro h; cases h; exact Or.inl ⟨rfl, rfl, rfl⟩
    | some orig =>
      cases hcur : get_current_url cfg n with
      | none => intro h; cases h; exact Or.inl ⟨rfl, rfl, rfl⟩
      | some cur =>
        dsimp only
        by_cases hcc : cur ≠ "" ∧ cur ≠ orig
        · rw [if_pos hcc]
          cases hprobe : check_source fetch nowTs localOff n orig "rss"
              DEFAULT_MAX_AGE_HOURS with
          | error m => intro h; cases h
          | ok probe =>
            dsimp only
            by_cases hpok : probe.ok = true
            · rw [if_pos hpok]
              cases hswp : swap_url_in_config text cur orig with
              | mk b t2 =>
                cases b with
                | true =>
                  intro h
                  cases h
                  exact Or.inr ⟨orig, cur, rfl, hcond.1, rfl, hcc.2,
                    ⟨probe, hprobe, hpok⟩, rfl, Or.inl ⟨rfl, rfl, hswp⟩⟩
                | false =>
                  intro h
                  cases h
                  exact Or.inr ⟨orig, cur, rfl, hcond.1, rfl, hcc.2,
                    ⟨probe, hprobe, hpok⟩, rfl, Or.inr ⟨rfl, rfl, hswp⟩⟩
            · rw [if_neg hpok]
              intro h
              cases h
              exact Or.inl ⟨rfl, rfl, rfl⟩
        · rw [if_neg hcc]
          intro h
          cases h
          exact Or.inl ⟨rfl, rfl, rfl⟩
  · intro h
    cases h
    exact Or.inl ⟨rfl, rfl, rfl⟩

/-- C1: for a source whose result this cycle is a failure, whose
post-increment consecutive-failure count reaches the threshold, with a
registered fallback, a configured nonempty live URL and no swap in
effect, the cycle requests the mutation replacing the live URL with the
fallback; exactly when that mutation applies (the serialized live URL
occurs in the document) the state records swapped_from as the pre-swap
URL, the document is rewritten and the SwapEvent (name, old, fallback) is
emitted, and when it does not apply nothing is recorded or emitted. -/
theorem C1_failover_swap (fetch : String → Except String String)
    (nowTs localOff : Int) (cfg : Config) (text : List Char)
    (nowStr sourceName : String) (res : CheckRes) (st : Entry) (fb oldUrl : String)
    (hfail : res.ok = false)
    (hthr : FAIL_THRESHOLD ≤ st.consecutive_fails + 1)
    (hfb : fallbackUrl sourceName = some fb)
    (hnsw : st.swapped_from = none)
    (hold : get_current_url cfg sourceName = some oldUrl)
    (holdne : oldUrl ≠ "") :
    ∃ out, step_source fetch nowTs localOff cfg text nowStr sourceName res st =
        Except.ok out ∧
      out.swapRequests = [(oldUrl, fb)] ∧ out.revertRequests = [] ∧
      (containsSub (jsonDumpsStr oldUrl) text = true →
        out.entry.swapped_from = some oldUrl ∧
        out.swapEvent = some (sourceName, oldUrl, fb) ∧
        out.text = replaceFirst (jsonDumpsStr oldUrl) (jsonDumpsStr fb) text) ∧
      (containsSub (jsonDumpsStr oldUrl) text = false →
        out.entry.swapped_from = none ∧ out.swapEvent = none ∧
        out.text = text) := by
  have hentry := update_entry_of_fail nowStr res st hfail
  have hfires := failover_step_fires cfg text sourceName res
    (update_entry nowStr res st) fb oldUrl hfail
    (by rw [hentry]; exact hthr) (by rw [hentry]; exact hnsw) hfb hold holdne
  cases hc : containsSub (jsonDumpsStr oldUrl) text with
  | true =>
    have hswp : swap_url_in_config text oldUrl fb =
        (true, replaceFirst (jsonDumpsStr oldUrl) (jsonDumpsStr fb) text) := by
      unfold swap_url_in_config
      rw [if_pos hc]
    refine ⟨⟨{ update_entry nowStr res st with swapped_from := some oldUrl },
      replaceFirst (jsonDumpsStr oldUrl) (jsonDumpsStr fb) text,
      [(oldUrl, fb)], [], some (sourceName, oldUrl, fb), none⟩, ?_, rfl, rfl,
      fun _ => ⟨rfl, rfl, rfl⟩, fun hcf => Bool.noConfusion hcf⟩
    unfold step_source
    dsimp only
    rw [hfires, hswp]
    rw [revert_step_of_fail fetch nowTs localOff cfg _ sourceName res _ hfail]
  | false =>
    have hswp : swap_url_in_config text oldUrl fb = (false, text) := by
      unfold swap_url_in_config
      rw [if_neg (by rw [hc]; exact Bool.false_ne_true)]
    refine ⟨⟨update_entry nowStr res st, text, [(oldUrl, fb)], [], none, none⟩,
      ?_, rfl, rfl, fun hct => Bool.noConfusion hct,
      fun _ => ⟨by rw [update_entry_swapped_from, hnsw], rfl, rfl⟩⟩
    unfold step_source
    dsimp only
    rw [hfires, hswp]
    rw [revert_step_of_fail fetch nowTs localOff cfg _ sourceName res _ hfail]

/-- Witness for C1: the 虎嗅 source fails its third consecutive probe,
its live URL is present in the document, and the cycle swaps it for the
registered fallback, recording swapped_from and emitting the event. -/
theorem C1_failover_swap_witness :
    ∃ out, step_source (fun _ => Except.error "URLError") 0 0
        ⟨[], [⟨"虎嗅", "http://old"⟩]⟩ "src \"http://old\" end".data "now" "虎嗅"
        ⟨false, some "unreachable: URLError", 0, none⟩ ⟨2, none, none, none⟩ =
        Except.ok out ∧
      out.entry.swapped_from = some "http://old" ∧
      out.swapEvent =
        some ("虎嗅", "http://old", "https://rsshub.rssforever.com/huxiu/article") := by
  obtain ⟨out, hstep, hreq, hrreq, hpos, hneg⟩ := C1_failover_swap
    (fun _ => Except.error "URLError") 0 0 ⟨[], [⟨"虎嗅", "http://old"⟩]⟩
    "src \"http://old\" end".data "now" "虎嗅"
    ⟨false, some "unreachable: URLError", 0, none⟩ ⟨2, none, none, none⟩
    "https://rsshub.rssforever.com/huxiu/article" "http://old"
    rfl (by decide) rfl rfl rfl (by decide)
  obtain ⟨h1, h2, h3⟩ := hpos (by decide)
  exact ⟨out, hstep, h1, h2⟩

/-- C2: once swapped_from is set it is never overwritten with a different
value by a cycle step: no further swap mutation is requested and no
SwapEvent is emitted for that source, whatever the result and however
large the failure count, and swapped_from either stays what it was or is
cleared to none by a completed revert. -/
theorem C2_no_double_swap (fetch : String → Except String String)
    (nowTs localOff : Int) (cfg : Config) (text : List Char)
    (nowStr sourceName : String) (res : CheckRes) (st : Entry) (u : String)
    (hsw : st.swapped_from = some u) :
    ∀ out, step_source fetch nowTs localOff cfg text nowStr sourceName res st =
        Except.ok out →
      out.swapEvent = none ∧ out.swapRequests = [] ∧
      (out.entry.swapped_from = some u ∨ out.entry.swapped_from = none) := by
  intro out hout
  have hesw : (update_entry nowStr res st).swapped_from = some u := by
    rw [update_entry_swapped_from, hsw]
  unfold step_source at hout
  dsimp only at hout
  rw [failover_step_of_swapped cfg text sourceName res _ u hesw] at hout
  cases hrev : revert_step fetch nowTs localOff cfg text sourceName res
      (update_entry nowStr res st) with
  | error m =>
    rw [hrev] at hout
    cases hout
  | ok r =>
    rw [hrev] at hout
    cases hout
    rcases revert_step_entry_cases fetch nowTs localOff cfg text sourceName res
        (update_entry nowStr res st) r hrev with
      ⟨h1, -, -⟩ | ⟨orig, cur, -, -, -, -, -, -, hcase⟩
    · exact ⟨rfl, rfl, Or.inl (by rw [h1, hesw])⟩
    · rcases hcase with ⟨h1, -, -⟩ | ⟨h1, -, -⟩
      · exact ⟨rfl, rfl, Or.inr (by rw [h1])⟩
      · exact ⟨rfl, rfl, Or.inl (by rw [h1, hesw])⟩

/-- Witness for C2: a failing source far past the threshold that is
already swapped gets no new swap request, no event, and keeps its
swapped_from value. -/
theorem C2_no_double_swap_witness :
    ∃ out, step_source (fun _ => Except.error "E") 0 0 ⟨[], []⟩ [] "n" "s"
        ⟨false, none, 0, none⟩ ⟨7, none, none, some "u"⟩ = Except.ok out ∧
      out.swapEvent = none ∧ out.swapRequests = [] ∧
      (out.entry.swapped_from = some "u" ∨ out.entry.swapped_from = none) := by
  refine ⟨⟨⟨8, some "n", none, some "u"⟩, [], [], [], none, none⟩, rfl, ?_⟩
  exact C2_no_double_swap (fun _ => Except.error "E") 0 0 ⟨[], []⟩ [] "n" "s"
    ⟨false, none, 0, none⟩ ⟨7, none, none, some "u"⟩ "u" rfl
    ⟨⟨8, some "n", none, some "u"⟩, [], [], [], none, none⟩ rfl

/-- C3: a revert mutation is requested for a source only when the cycle's
result is a success, swapped_from is set, the configured live URL exists
and differs from it, and a fresh probe issued against the original URL
itself (with the fixed feed-xml kind and default threshold) succeeds — a
healthy currently-live fallback alone never produces a request; and
whenever the RevertEvent is emitted it carries (name, live URL, original
URL), swapped_from is cleared and the restoring mutation applied to the
document. -/
theorem C3_revert_gate (fetch : String → Except String String)
    (nowTs localOff : Int) (cfg : Config) (text : List Char)
    (nowStr sourceName : String) (res : CheckRes) (st : Entry) :
    ∀ out, step_source fetch nowTs localOff cfg text nowStr sourceName res st =
        Except.ok out →
      (out.revertRequests ≠ [] →
        res.ok = true ∧
        ∃ orig cur, st.swapped_from = some orig ∧
          get_current_url cfg sourceName = some cur ∧ cur ≠ orig ∧
          out.revertRequests = [(cur, orig)] ∧
          ∃ pr, check_source fetch nowTs localOff sourceName orig "rss"
              DEFAULT_MAX_AGE_HOURS = Except.ok pr ∧ pr.ok = true) ∧
      (∀ ev, out.revertEvent = some ev →
        out.revertRequests ≠ [] ∧ out.entry.swapped_from = none ∧
        ∃ orig cur, ev = (sourceName, cur, orig) ∧ st.swapped_from = some orig ∧
          swap_url_in_config text cur orig = (true, out.text)) := by
  intro out hout
  unfold step_source at hout
  dsimp only at hout
  rcases hfoeq : failover_step cfg text sourceName res (update_entry nowStr res st)
    with ⟨e1, t1, reqs1, ev1⟩
  rw [hfoeq] at hout
  dsimp only at hout
  cases hrev : revert_step fetch nowTs localOff cfg t1 sourceName res e1 with
  | error m =>
    rw [hrev] at hout
    cases hout
  | ok r =>
    rcases r with ⟨e2, t2, reqs2, ev2⟩
    rw [hrev] at hout
    dsimp only at hout
    cases hout
    rcases revert_step_entry_cases fetch nowTs localOff cfg t1 sourceName res e1
        (e2, t2, reqs2, ev2) hrev with
      ⟨he2, hreqs2, hev2⟩ | ⟨orig, cur, he1sw, hresok, hcur, hneq,
        ⟨pr, hpr, hprok⟩, hreqs2, hcase⟩
    · dsimp only at he2 hreqs2 hev2
      constructor
      · intro hne
        exact absurd hreqs2 hne
      · intro ev hev
        dsimp only at hev
        rw [hev2] at hev
        cases hev
    · have hfo1 : (update_entry nowStr res st, text,
          ([] : List (String × String)),
          (none : Option (String × String × String))) = (e1, t1, reqs1, ev1) :=
        (failover_step_of_ok cfg text sourceName res
          (update_entry nowStr res st) hresok).symm.trans hfoeq
      have he1 : e1 = update_entry nowStr res st := by
        have := congrArg Prod.fst hfo1
        exact this.symm
      have ht1 : t1 = text := by
        have := congrArg (fun p => p.2.1) hfo1
        exact this.symm
      have hstsw : st.swapped_from = some orig := by
        rw [← update_entry_swapped_from nowStr res st, ← he1]
        exact he1sw
      dsimp only at hreqs2
      constructor
      · intro _
        exact ⟨hresok, orig, cur, hstsw, hcur, hneq, hreqs2, pr, hpr, hprok⟩
      · intro ev hev
        dsimp only at hev
        rcases hcase with ⟨he2v, hev2, hswp⟩ | ⟨he2v, hev2, hswp⟩
        · dsimp only at he2v hev2 hswp
          rw [hev2] at hev
          cases hev
          refine ⟨?_, ?_, orig, cur, rfl, hstsw, ?_⟩
          · dsimp only
            rw [hreqs2]
            exact List.cons_ne_nil _ _
          · dsimp only
            rw [he2v]
          · dsimp only
            rw [← ht1]
            exact hswp
        · dsimp only at hev2
          rw [hev2] at hev
          cases hev

/-- Witness for C3: a swapped source whose result is healthy and whose
original URL probes healthy again is reverted: the restore request and
event are emitted and swapped_from is cleared. -/
theorem C3_revert_gate_witness :
    ∃ out pr,
      step_source
          (fun u => if u == "http://orig" then
              Except.ok "<rss><item>x</item></rss>"
            else Except.error "URLError") 0 0
          ⟨[], [⟨"虎嗅", "http://fb"⟩]⟩ "src \"http://fb\" end".data "now" "虎嗅"
          ⟨true, none, 5, none⟩ ⟨0, none, none, some "http://orig"⟩ =
        Except.ok out ∧
      out.revertRequests = [("http://fb", "http://orig")] ∧
      out.revertEvent = some ("虎嗅", "http://fb", "http://orig") ∧
      out.entry.swapped_from = none ∧
      check_source
          (fun u => if u == "http://orig" then
              Except.ok "<rss><item>x</item></rss>"
            else Except.error "URLError") 0 0 "虎嗅" "http://orig" "rss"
          DEFAULT_MAX_AGE_HOURS = Except.ok pr ∧ pr.ok = true := by
  have h := C3_revert_gate
    (fun u => if u == "http://orig" then Except.ok "<rss><item>x</item></rss>"
      else Except.error "URLError") 0 0 ⟨[], [⟨"虎嗅", "http://fb"⟩]⟩
    "src \"http://fb\" end".data "now" "虎嗅" ⟨true, none, 5, none⟩
    ⟨0, none, none, some "http://orig"⟩
    ⟨⟨0, some "now", none, none⟩, "src \"http://orig\" end".data, [],
      [("http://fb", "http://orig")], none,
      some ("虎嗅", "http://fb", "http://orig")⟩ rfl
  obtain ⟨hresok, orig, cur, hsw, hcur, hneq, hreqs, pr, hpr, hprok⟩ :=
    h.1 (by decide)
  injection hsw with hsw2
  subst hsw2
  exact ⟨_, pr, rfl, rfl, rfl, rfl, hpr, hprok⟩

theorem failover_step_entry_fields (cfg : Config) (text : List Char) (n : String)
    (res : CheckRes) (e : Entry) :
    (failover_step cfg text n res e).1.consecutive_fails = e.consecutive_fails ∧
    (failover_step cfg text n res e).1.last_check = e.last_check ∧
    (failover_step cfg text n res e).1.last_error = e.last_error := by
  unfold failover_step
  repeat' split
  all_goals exact ⟨rfl, rfl, rfl⟩

theorem revert_step_entry_fields (fetch : String → Except String String)
    (nowTs localOff : Int) (cfg : Config) (text : List Char) (n : String)
    (res : CheckRes) (e : Entry) :
    ∀ r, revert_step fetch nowTs localOff cfg text n res e = Except.ok r →
      r.1.consecutive_fails = e.consecutive_fails ∧
      r.1.last_check = e.last_check ∧
      r.1.last_error = e.last_error := by
  intro r h
  rcases revert_step_entry_cases fetch nowTs localOff cfg text n res e r h with
    ⟨h1, -, -⟩ | ⟨orig, cur, -, -, -, -, -, -, (⟨h1, -, -⟩ | ⟨h1, -, -⟩)⟩ <;>
    rw [h1] <;> exact ⟨rfl, rfl, rfl⟩

/-- C8: the per-cycle state update stamps last_check with the cycle time;
a success resets consecutive_fails to zero and clears last_error whatever
their prior values, and a failure increments consecutive_fails by one and
records the failure's message — whatever failover or revert activity the
same pass performs. -/
theorem C8_state_update (fetch : String → Except String String)
    (nowTs localOff : Int) (cfg : Config) (text : List Char)
    (nowStr sourceName : String) (res : CheckRes) (st : Entry) :
    ∀ out, step_source fetch nowTs localOff cfg text nowStr sourceName res st =
        Except.ok out →
      out.entry.last_check = some nowStr ∧
      (res.ok = true → out.entry.consecutive_fails = 0 ∧
        out.entry.last_error = none) ∧
      (res.ok = false → out.entry.consecutive_fails = st.consecutive_fails + 1 ∧
        out.entry.last_error = res.error) := by
  intro out hout
  unfold step_source at hout
  dsimp only at hout
  rcases hfoeq : failover_step cfg text sourceName res (update_entry nowStr res st)
    with ⟨e1, t1, reqs1, ev1⟩
  rw [hfoeq] at hout
  dsimp only at hout
  cases hrev : revert_step fetch nowTs localOff cfg t1 sourceName res e1 with
  | error m =>
    rw [hrev] at hout
    cases hout
  | ok r =>
    rcases r with ⟨e2, t2, reqs2, ev2⟩
    rw [hrev] at hout
    dsimp only at hout
    cases hout
    obtain ⟨hf1, hf2, hf3⟩ := revert_step_entry_fields fetch nowTs localOff cfg t1
      sourceName res e1 (e2, t2, reqs2, ev2) hrev
    obtain ⟨hg1, hg2, hg3⟩ := failover_step_entry_fields cfg text sourceName res
      (update_entry nowStr res st)
    rw [hfoeq] at hg1 hg2 hg3
    dsimp only at hf1 hf2 hf3 hg1 hg2 hg3
    refine ⟨?_, fun hok => ⟨?_, ?_⟩, fun hfail => ⟨?_, ?_⟩⟩
    · rw [hf2, hg2]
      unfold update_entry
      split <;> rfl
    · rw [hf1, hg1, update_entry_of_ok nowStr res st hok]
    · rw [hf3, hg3, update_entry_of_ok nowStr res st hok]
    · rw [hf1, hg1, update_entry_of_fail nowStr res st hfail]
    · rw [hf3, hg3, update_entry_of_fail nowStr res st hfail]

/-- Witness for C8: a failing result increments the counter from 4 to 5,
records the error message and stamps the check time. -/
theorem C8_state_update_witness :
    ∃ out, step_source (fun _ => Except.error "E") 0 0 ⟨[], []⟩ [] "2024-01-01" "s"
        ⟨false, some "empty response", 0, none⟩ ⟨4, none, none, none⟩ =
        Except.ok out ∧
      out.entry.last_check = some "2024-01-01" ∧
      out.entry.consecutive_fails = 5 ∧
      out.entry.last_error = some "empty response" := by
  have h := C8_state_update (fun _ => Except.error "E") 0 0 ⟨[], []⟩ [] "2024-01-01"
    "s" ⟨false, some "empty response", 0, none⟩ ⟨4, none, none, none⟩
    ⟨⟨5, some "2024-01-01", some "empty response", none⟩, [], [], [], none, none⟩
    rfl
  obtain ⟨h1, -, h3⟩ := h
  obtain ⟨h4, h5⟩ := h3 rfl
  exact ⟨_, rfl, h1, h4, h5⟩

/-- C9: the pre-revert probe is issued with the fixed feed-xml type tag
and the default 72-hour threshold (the step function does not even
receive the source's declared kind or configured threshold), so for a
swapped structured-api source whose original endpoint has recovered — its
body probes healthy under its own kind — the revert gate still fails
whenever the same body read as feed-xml fails, and no revert request is
made and swapped_from stays set. -/
theorem C9_revert_probe_fixed_kind (fetch : String → Except String String)
    (nowTs localOff : Int) (cfg : Config) (text : List Char)
    (nowStr sourceName : String) (res : CheckRes) (st : Entry)
    (orig cur stype : String) (maxA : Int) (r pr : CheckRes)
    (hok : res.ok = true)
    (hsw : st.swapped_from = some orig) (horig : orig ≠ "")
    (hcur : get_current_url cfg sourceName = some cur) (hcurne : cur ≠ "")
    (hneq : cur ≠ orig)
    (hrecovered : check_source fetch nowTs localOff sourceName orig stype maxA =
      Except.ok r)
    (hrok : r.ok = true)
    (hprobe : check_source fetch nowTs localOff sourceName orig "rss"
        DEFAULT_MAX_AGE_HOURS = Except.ok pr)
    (hprfail : pr.ok = false) :
    step_source fetch nowTs localOff cfg text nowStr sourceName res st =
      Except.ok ⟨update_entry nowStr res st, text, [], [], none, none⟩ ∧
    (update_entry nowStr res st).swapped_from = some orig := by
  have hesw : (update_entry nowStr res st).swapped_from = some orig := by
    rw [update_entry_swapped_from, hsw]
  constructor
  · unfold step_source
    dsimp only
    rw [failover_step_of_ok cfg text sourceName res _ hok]
    rw [revert_step_fires fetch nowTs localOff cfg text sourceName res _ orig cur
      hok hesw horig hcur hcurne hneq]
    rw [hprobe]
    dsimp only
    rw [if_neg (by rw [hprfail]; exact fun hc => Bool.noConfusion hc)]
  · exact hesw

/-- Witness for C9: the original URL of a swapped structured-api source
serves fresh valid JSON (healthy under the json kind and the source's own
72h threshold), but the fixed rss-kind revert probe hits an XML parse
error, so the cycle does not revert and swapped_from stays set. -/
theorem C9_revert_probe_fixed_kind_witness :
    check_source
        (fun u => if u == "http://orig" then
            Except.ok "\x7b\"result\": \x7b\"data\": [\x7b\"ctime\": 1000000\x7d]\x7d\x7d"
          else Except.error "URLError") 1000000 0 "新浪" "http://orig" "json" 72 =
      Except.ok ⟨true, none, 1, some ⟨0, 10⟩⟩ ∧
    check_source
        (fun u => if u == "http://orig" then
            Except.ok "\x7b\"result\": \x7b\"data\": [\x7b\"ctime\": 1000000\x7d]\x7d\x7d"
          else Except.error "URLError") 1000000 0 "新浪" "http://orig" "rss"
        DEFAULT_MAX_AGE_HOURS =
      Except.ok ⟨false, some "XML parse error", 0, none⟩ ∧
    step_source
        (fun u => if u == "http://orig" then
            Except.ok "\x7b\"result\": \x7b\"data\": [\x7b\"ctime\": 1000000\x7d]\x7d\x7d"
          else Except.error "URLError") 1000000 0
        ⟨[⟨"新浪", "http://fb"⟩], []⟩ "cfg \"http://fb\" end".data "now" "新浪"
        ⟨true, none, 1, some ⟨0, 10⟩⟩ ⟨0, none, none, some "http://orig"⟩ =
      Except.ok ⟨⟨0, some "now", none, some "http://orig"⟩,
        "cfg \"http://fb\" end".data, [], [], none, none⟩ := by
  have h := C9_revert_probe_fixed_kind
    (fun u => if u == "http://orig" then
        Except.ok "\x7b\"result\": \x7b\"data\": [\x7b\"ctime\": 1000000\x7d]\x7d\x7d"
      else Except.error "URLError") 1000000 0 ⟨[⟨"新浪", "http://fb"⟩], []⟩
    "cfg \"http://fb\" end".data "now" "新浪" ⟨true, none, 1, some ⟨0, 10⟩⟩
    ⟨0, none, none, some "http://orig"⟩ "http://orig" "http://fb" "json" 72
    ⟨true, none, 1, some ⟨0, 10⟩⟩ ⟨false, some "XML parse error", 0, none⟩
    rfl rfl (by decide) rfl (by decide) (by decide) rfl rfl rfl rfl
  exact ⟨rfl, rfl, h.1⟩

theorem foldl_dictInsert_append (g : CheckTask → CheckRes) :
    ∀ (l : List CheckTask) (acc : List (String × CheckRes)),
      (acc.map Prod.fst ++ l.map CheckTask.name).Nodup →
      l.foldl (fun d t => dictInsert d (t.name, g t)) acc =
        acc ++ l.map (fun t => (t.name, g t)) := by
  intro l
  induction l with
  | nil =>
    intro acc _
    simp
  | cons t rest ih =>
    intro acc h
    rw [List.foldl_cons]
    have hnotin : t.name ∉ acc.map Prod.fst := by
      intro hmem
      rcases List.nodup_append.mp h with ⟨-, -, hdisj⟩
      exact hdisj hmem (List.mem_cons_self _ _)
    have hins : dictInsert acc (t.name, g t) = acc ++ [(t.name, g t)] := by
      unfold dictInsert
      rw [if_neg]
      intro hany
      rcases List.any_eq_true.mp hany with ⟨p, hp, hbeq⟩
      have hpe : p.1 = t.name := beq_iff_eq.mp hbeq
      exact hnotin (hpe ▸ List.mem_map_of_mem Prod.fst hp)
    rw [hins, ih (acc ++ [(t.name, g t)]) (by
      simpa [List.map_append, List.append_assoc] using h)]
    simp [List.append_assoc]

theorem dictLookup_of_mem :
    ∀ (l : List (String × CheckRes)) (k : String) (v : CheckRes),
      (l.map Prod.fst).Nodup → (k, v) ∈ l → dictLookup l k = some v := by
  intro l
  induction l with
  | nil =>
    intro k v _ hm
    cases hm
  | cons p rest ih =>
    intro k v hnd hm
    rcases List.mem_cons.mp hm with heq | hmem
    · unfold dictLookup
      rw [← heq]
      simp [List.find?]
    · have hk : k ∈ rest.map Prod.fst := by
        have := List.mem_map_of_mem Prod.fst hmem
        simpa using this
      have hp1 : (p.1 == k) = false := by
        rw [beq_eq_false_iff_ne]
        intro hEq
        rcases List.nodup_cons.mp hnd with ⟨hnotin, -⟩
        exact hnotin (hEq ▸ hk)
      unfold dictLookup
      rw [List.find?_cons_of_neg _ (by rw [hp1]; exact fun hc => Bool.noConfusion hc)]
      exact ih k v (List.nodup_cons.mp hnd).2 hmem

/-- C5: for configured sources with pairwise-distinct names, the fan-in
of one cycle returns exactly one settled result per source, keyed by name
and matched to that source's own probe outcome under every completion
order (any permutation of the task list); a probe that raises is
converted, for that source alone, into the synthetic exception failure
entry while every other source's result is still produced. -/
theorem C5_scheduler_fanin (fetch : String → Except String String)
    (nowTs localOff : Int) (tasks perm : List CheckTask)
    (hperm : perm.Perm tasks) (hnd : (tasks.map CheckTask.name).Nodup) :
    (scheduleResults fetch nowTs localOff perm).length = tasks.length ∧
    (∀ t ∈ tasks,
      dictLookup (scheduleResults fetch nowTs localOff perm) t.name =
        some (settleResult (runProbe fetch nowTs localOff t))) ∧
    (∀ t ∈ tasks, ∀ m, runProbe fetch nowTs localOff t = Except.error m →
      dictLookup (scheduleResults fetch nowTs localOff perm) t.name =
        some ⟨false, some ("exception: " ++ m), 0, none⟩) := by
  have hndp : (perm.map CheckTask.name).Nodup :=
    ((hperm.map CheckTask.name).nodup_iff).mpr hnd
  have hres : scheduleResults fetch nowTs localOff perm =
      perm.map (fun t => (t.name, settleResult (runProbe fetch nowTs localOff t))) := by
    unfold scheduleResults
    simpa using foldl_dictInsert_append
      (fun t => settleResult (runProbe fetch nowTs localOff t)) perm []
      (by simpa using hndp)
  have hkeys : ((perm.map
      (fun t => (t.name, settleResult (runProbe fetch nowTs localOff t)))).map
        Prod.fst).Nodup := by
    rw [List.map_map]
    simpa [Function.comp] using hndp
  have hlook : ∀ t ∈ tasks,
      dictLookup (scheduleResults fetch nowTs localOff perm) t.name =
        some (settleResult (runProbe fetch nowTs localOff t)) := by
    intro t ht
    rw [hres]
    exact dictLookup_of_mem _ t.name _ hkeys
      (List.mem_map_of_mem _ (hperm.mem_iff.mpr ht))
  refine ⟨?_, hlook, ?_⟩
  · rw [hres]
    simp [hperm.length_eq]
  · intro t ht m hm
    rw [hlook t ht, hm]
    rfl

/-- Witness for C5: two tasks completing in reversed order; the first
task's probe raises (JSON array body) and yields the synthetic exception
entry, the second fails normally as unreachable, and both results are
present under their own names. -/
theorem C5_scheduler_fanin_witness :
    (scheduleResults
        (fun u => if u == "u1" then Except.ok "[1]" else Except.error "TimeoutError")
        0 0 [⟨"b", "u2", "rss", 72⟩, ⟨"a", "u1", "json", 72⟩]).length = 2 ∧
    dictLookup
        (scheduleResults
          (fun u => if u == "u1" then Except.ok "[1]" else Except.error "TimeoutError")
          0 0 [⟨"b", "u2", "rss", 72⟩, ⟨"a", "u1", "json", 72⟩]) "a" =
      some ⟨false,
        some "exception: \x27list\x27 object has no attribute \x27get\x27",
        0, none⟩ ∧
    dictLookup
        (scheduleResults
          (fun u => if u == "u1" then Except.ok "[1]" else Except.error "TimeoutError")
          0 0 [⟨"b", "u2", "rss", 72⟩, ⟨"a", "u1", "json", 72⟩]) "b" =
      some ⟨false, some "unreachable: TimeoutError", 0, none⟩ := by
  have h := C5_scheduler_fanin
    (fun u => if u == "u1" then Except.ok "[1]" else Except.error "TimeoutError")
    0 0 [⟨"a", "u1", "json", 72⟩, ⟨"b", "u2", "rss", 72⟩]
    [⟨"b", "u2", "rss", 72⟩, ⟨"a", "u1", "json", 72⟩]
    (List.Perm.swap _ _ _) (by decide)
  refine ⟨h.1, ?_, ?_⟩
  · rw [h.2.1 ⟨"a", "u1", "json", 72⟩ (by simp)]
    rfl
  · rw [h.2.1 ⟨"b", "u2", "rss", 72⟩ (by simp)]
    rfl

end RssHealth









